import Mathlib

/-!
Verification of the hierarchical configuration store ("Config") of the
Red-DiscordBot fork: a shallow embedding of the claim-relevant operations from
`redbot/core/config/` (value.py, group.py, array.py, utils.py, config.py,
drivers/base.py), together with theorems settling the frozen claims.

Modelling conventions:
* JSON-compatible Python values are embedded as the inductive type `PyVal`.
  Numbers are modelled as integers only (every claim exercises integral
  values; floats never appear in any claim scenario).
* Python dicts are insertion-ordered association lists; item assignment
  replaces the first matching entry in place (keeping the original key
  object), otherwise appends — exactly Python's dict semantics.
* Python `==` (used by `dict.__eq__`, `list.index`, and the write-suppression
  comparison in `ValueContextManager.__aexit__`) is embedded as `pyEq`,
  including the numeric equality between `bool` and `int` (`True == 1`).
* Fallible code returns `Except PyErr`; `PyErr` names the Python exception
  classes the source raises (`KeyError` is the driver-contract NotFound).
* The storage backend is modelled at a single composite path as `StubDriver`
  (an optional stored document plus a write counter), which is exactly the
  abstract `BaseDriver.get`/`set` contract of drivers/base.py: `get` raises
  `KeyError` when nothing is stored, `set` stores the given value verbatim.
  All claims quantify over operations against one fixed path, so a
  single-path store loses nothing.
* Coroutines suspend only at driver calls; the derived driver operations hold
  the path's lock across their whole read-modify-write, so a run of locked
  operations is equivalent to some serialization.  Locks and the
  lock-acquired flag are passed explicitly.
-/

/-- Python exception classes raised by the config subsystem. -/
inductive PyErr where
  /-- KeyError: the driver-contract "NotFound" (and failed dict subscript). -/
  | keyError
  /-- redbot.core.errors.StoredTypeError: the "TypeMismatch" class. -/
  | storedTypeError
  /-- ValueError. -/
  | valueError
  /-- IndexError: the "IndexOutOfRange" class. -/
  | indexError
  /-- AttributeError. -/
  | attributeError
  /-- TypeError. -/
  | typeError
  /-- RuntimeError. -/
  | runtimeError
deriving Repr, DecidableEq

/-- JSON-compatible Python value.  Dict entries keep insertion order; keys are
arbitrary values before `str_key_dict` runs (e.g. ints), strings afterwards. -/
inductive PyVal where
  | none
  | bool (b : Bool)
  | int (n : Int)
  | str (s : String)
  | list (xs : List PyVal)
  | dict (entries : List (PyVal × PyVal))
deriving Repr

/-- Whether the value is a Python dict. -/
def PyVal.isDict : PyVal → Bool
  | .dict _ => true
  | _ => false

/-- Whether the value is a Python list. -/
def PyVal.isList : PyVal → Bool
  | .list _ => true
  | _ => false

/-- Whether the value is a Python str. -/
def PyVal.isStr : PyVal → Bool
  | .str _ => true
  | _ => false

/-- Python `isinstance(x, (int, float))`.  `bool` is a subclass of `int` in
Python, so booleans count as numbers — this is what lets `BaseDriver.inc`
increment a stored boolean (drivers/base.py:129). -/
def PyVal.isNumber : PyVal → Bool
  | .bool _ => true
  | .int _ => true
  | _ => false

/-- Numeric value of a Python number: `True` counts as 1 and `False` as 0. -/
def PyVal.numVal : PyVal → Int
  | .bool b => if b then 1 else 0
  | .int n => n
  | _ => 0

/-- Python `str()` of a value used as a dict key.  Lists and dicts are
unhashable in Python and can never be dict keys, so their clause is a stub. -/
def pyStr : PyVal → String
  | .none => "None"
  | .bool b => if b then "True" else "False"
  | .int n => toString n
  | .str s => s
  | .list _ => ""
  | .dict _ => ""

mutual

/-- Python `==` on JSON-compatible values: `None` equals only `None`; numbers
(ints and bools) compare by numeric value, so `True == 1`; strings compare by
content; lists elementwise; dicts by length plus key-wise lookup (insertion
order is irrelevant). -/
def pyEq : PyVal → PyVal → Bool
  | .none, .none => true
  | .bool a, .bool b => a == b
  | .bool a, .int n => (if a then (1 : Int) else 0) == n
  | .int n, .bool b => n == (if b then (1 : Int) else 0)
  | .int a, .int b => a == b
  | .str a, .str b => a == b
  | .list xs, .list ys => pyEqList xs ys
  | .dict xs, .dict ys => Nat.beq xs.length ys.length && pyEqEntries xs ys
  | _, _ => false
termination_by a b => sizeOf a + sizeOf b

/-- Elementwise Python `==` on lists. -/
def pyEqList : List PyVal → List PyVal → Bool
  | [], [] => true
  | x :: xs, y :: ys => pyEq x y && pyEqList xs ys
  | _, _ => false
termination_by xs ys => sizeOf xs + sizeOf ys

/-- Every entry of the first dict has a `==`-matching entry in the second. -/
def pyEqEntries : List (PyVal × PyVal) → List (PyVal × PyVal) → Bool
  | [], _ => true
  | (k, v) :: rest, ys => pyFindEq ys k v && pyEqEntries rest ys
termination_by xs ys => sizeOf xs + sizeOf ys

/-- The dict `ys` has an entry whose key `==` k and whose value `==` v. -/
def pyFindEq : List (PyVal × PyVal) → PyVal → PyVal → Bool
  | [], _, _ => false
  | (k2, v2) :: rest, k, v => if pyEq k k2 then pyEq v v2 else pyFindEq rest k v
termination_by ys k v => sizeOf ys + sizeOf k + sizeOf v

end

/-- Python dict lookup by key (`d[key]`-style search): the value of the first
entry whose key compares `==` to the requested key. -/
def assocFind : List (PyVal × PyVal) → PyVal → Option PyVal
  | [], _ => Option.none
  | (k2, v2) :: rest, k => if pyEq k k2 then some v2 else assocFind rest k

/-- Python dict item assignment `d[key] = v`: replace the value of the first
`==`-matching entry in place, keeping the original key object and position;
append a new entry otherwise. -/
def assocSet : List (PyVal × PyVal) → PyVal → PyVal → List (PyVal × PyVal)
  | [], k, v => [(k, v)]
  | (k2, v2) :: rest, k, v =>
    if pyEq k k2 then (k2, v) :: rest else (k2, v2) :: assocSet rest k v

/-- Python list subscript `xs[i]` with negative-index support: indices in
`[-len, len)` resolve, anything else raises IndexError. -/
def pyListGet (xs : List PyVal) (i : Int) : Except PyErr PyVal :=
  let j : Int := if i < 0 then i + xs.length else i
  if 0 ≤ j ∧ j < xs.length then .ok (xs.getD j.toNat .none) else .error .indexError

/-- Python slice `xs[k:]` for an arbitrary integer bound. -/
def pySliceFrom (xs : List PyVal) (k : Int) : List PyVal :=
  if k < 0 then xs.drop (Int.toNat (k + xs.length)) else xs.drop k.toNat

/-- Python slice `xs[:k]` for an arbitrary integer bound. -/
def pySliceTo (xs : List PyVal) (k : Int) : List PyVal :=
  if k < 0 then xs.take (Int.toNat (k + xs.length)) else xs.take k.toNat

/-- Python item assignment `container[key] = v` as used by
`Group.__nested_update` (`ret[key] = ...`): dicts assign by key, lists by
numeric index (IndexError out of range), everything else raises TypeError. -/
def pySetItem (container key value : PyVal) : Except PyErr PyVal :=
  match container with
  | .dict es => .ok (.dict (assocSet es key value))
  | .list xs =>
    if key.isNumber then
      let j : Int := if key.numVal < 0 then key.numVal + xs.length else key.numVal
      if 0 ≤ j ∧ j < xs.length then .ok (.list (xs.set j.toNat value))
      else .error .indexError
    else .error .typeError
  | _ => .error .typeError

/-- The abstract storage backend of drivers/base.py at one composite path: an
optional stored document plus a counter of `set` calls (the spec's
"write-call counter on a stub driver"). -/
structure StubDriver where
  data : Option PyVal
  writeCount : Nat
deriving Repr

/-- Driver-contract `get` (drivers/base.py:60-74): the stored value, or
KeyError when nothing is stored at the path. -/
def driverGet (d : StubDriver) : Except PyErr PyVal :=
  match d.data with
  | Option.none => .error .keyError
  | some v => .ok v

/-- Driver-contract `set` (drivers/base.py:76-87): store the value verbatim. -/
def driverSet (d : StubDriver) (v : PyVal) : StubDriver :=
  { data := some v, writeCount := d.writeCount + 1 }

mutual

/-- Loop body of `str_key_dict` (utils.py:61-81): `ret` starts empty and each
entry is stored as `ret[str(k)] = v`, with dict values recursively converted
first.  Colliding stringified keys therefore collapse, later entries winning. -/
def strKeyGo : List (PyVal × PyVal) → List (PyVal × PyVal) → List (PyVal × PyVal)
  | ret, [] => ret
  | ret, (k, v) :: rest => strKeyGo (assocSet ret (.str (pyStr k)) (strKeyVal v)) rest
termination_by _ es => sizeOf es

/-- Recursive step of `str_key_dict`: dict values are converted, everything
else (including dicts nested inside lists) is kept verbatim. -/
def strKeyVal : PyVal → PyVal
  | .dict es => .dict (strKeyGo [] es)
  | v => v
termination_by v => sizeOf v

end

/-- The `str_key_dict` function of utils.py:61-81 on a dict's entries. -/
def strKeyDict (es : List (PyVal × PyVal)) : List (PyVal × PyVal) :=
  strKeyGo [] es

/-- Value.set (value.py:194-215): dict input has its keys recursively cast to
`str` via `str_key_dict`, then the driver stores the result. -/
def valueSet (d : StubDriver) (v : PyVal) : StubDriver :=
  driverSet d (match v with
    | .dict es => .dict (strKeyDict es)
    | _ => v)

/-- Value.default (value.py:83-96): the registered default at this value's
category and field path, or nothing.  The walk of the registry's default tree
is modelled by its outcome at the fixed path. -/
def valueDefault (registeredDefault : Option PyVal) : Option PyVal :=
  registeredDefault

/-- Value._get (value.py:132-137): the stored value, falling back to the
override default when one was given (`none` models the `...` sentinel), else
to the registered default (`None` when unregistered). -/
def valueGet (registeredDefault : Option PyVal) (override : Option PyVal)
    (d : StubDriver) : PyVal :=
  match driverGet d with
  | .ok v => v
  | .error _ =>
    match override with
    | some dv => dv
    | Option.none => (valueDefault registeredDefault).getD .none

/-- Python `defaults.get(key, {})` as called by `Group.__nested_update`
(group.py:376): dict lookup with `{}` fallback; calling `.get` on a non-dict
raises AttributeError. -/
def dictGetOrEmpty (defaults key : PyVal) : Except PyErr PyVal :=
  match defaults with
  | .dict es => .ok ((assocFind es key).getD (.dict []))
  | _ => .error .attributeError

mutual

/-- Group.__nested_update (group.py:357-379) with `int_primary_keys` fixed to
False (no claim exercises it).  `cur_data`'s entries are given as a list;
`ret` starts as `{}` while the level still holds primary keys, else as a deep
copy of `defaults` (deep copy is the identity on immutable values). -/
def nestedUpdate (pkeyLen curLevel : Nat) (curData : List (PyVal × PyVal))
    (defaults : PyVal) : Except PyErr PyVal :=
  nestedUpdateGo pkeyLen curLevel curData defaults
    (if curLevel < pkeyLen then .dict [] else defaults)
termination_by sizeOf curData + 1

/-- The `for key, value in cur_data.items()` loop of `Group.__nested_update`,
threading the `ret` accumulator.  At primary-key levels every value must
itself be a dict (its `.items()` is taken by the recursive call, so anything
else raises AttributeError); at document levels dict values are merged
recursively onto `defaults.get(key, {})` and all other values are assigned
verbatim. -/
def nestedUpdateGo (pkeyLen curLevel : Nat) (entries : List (PyVal × PyVal))
    (defaults ret : PyVal) : Except PyErr PyVal :=
  match entries with
  | [] => .ok ret
  | (key, value) :: rest =>
    if curLevel < pkeyLen then
      match value with
      | .dict ventries =>
        match nestedUpdate pkeyLen (curLevel + 1) ventries defaults with
        | .ok sub =>
          match pySetItem ret key sub with
          | .ok ret2 => nestedUpdateGo pkeyLen curLevel rest defaults ret2
          | .error e => .error e
        | .error e => .error e
      | _ => .error .attributeError
    else
      match value with
      | .dict ventries =>
        match dictGetOrEmpty defaults key with
        | .ok dsub =>
          match nestedUpdate pkeyLen curLevel ventries dsub with
          | .ok sub =>
            match pySetItem ret key sub with
            | .ok ret2 => nestedUpdateGo pkeyLen curLevel rest defaults ret2
            | .error e => .error e
          | .error e => .error e
        | .error e => .error e
      | _ =>
        match pySetItem ret key value with
        | .ok ret2 => nestedUpdateGo pkeyLen curLevel rest defaults ret2
        | .error e => .error e
termination_by sizeOf entries

end

/-- Group.defaults (group.py:71-77): the registered default, or `{}` when
nothing is registered at the group's path. -/
def groupDefaults (registeredDefault : Option PyVal) : PyVal :=
  match valueDefault registeredDefault with
  | Option.none => .dict []
  | some d => d

/-- Group._get (group.py:326-341), the coroutine behind `Group.all()` and
awaiting a Group (with no override default and `int_primary_keys` False):
while primary-key components are still missing the stored document falls back
to `{}` instead of the registered defaults; a stored dict is then recursively
overlaid onto the defaults by `__nested_update`, and a stored non-dict is
returned as is.  `pkeyLen` is the category's declared primary-key arity and
`numPkeys` the number of primary-key components already filled in. -/
def groupGetAll (pkeyLen numPkeys : Nat) (registeredDefault : Option PyVal)
    (d : StubDriver) : Except PyErr PyVal :=
  let dflt := groupDefaults registeredDefault
  let passedDefault := if numPkeys < pkeyLen then PyVal.dict [] else dflt
  let raw := valueGet registeredDefault (some passedDefault) d
  match raw with
  | .dict es => nestedUpdate pkeyLen numPkeys es dflt
  | _ => .ok raw

/-- A lock argument.  The derived operations of drivers/base.py take the
path's lock as a *required keyword-only* parameter; mirroring the Python call
protocol, `Option.none` stands for a call that omitted it, which is a
TypeError before the body runs. -/
def LockArg : Type := Option Unit

/-- BaseDriver.inc (drivers/base.py:102-134): under the given lock, read the
stored value (falling back to `default` on KeyError), raise StoredTypeError
when the stored value fails `isinstance(x, (int, float))` — booleans pass,
being int subclasses — then write back and return the sum.  The whole
read-modify-write happens inside `async with lock`, so concurrent calls
serialize; one call is therefore modelled as an atomic state transition. -/
def baseDriverInc (d : StubDriver) (value default : Int) (lock : LockArg) :
    Except PyErr (Int × StubDriver) :=
  match lock with
  | Option.none => .error .typeError
  | some _ =>
    match driverGet d with
    | .ok existing =>
      if existing.isNumber then
        let newValue := existing.numVal + value
        .ok (newValue, driverSet d (.int newValue))
      else .error .storedTypeError
    | .error _ =>
      let newValue := default + value
      .ok (newValue, driverSet d (.int newValue))

/-- Value.inc (value.py:217-250): resolve the default (override, else the
registered default), require it numeric (`ValueError` otherwise), then call
`driver.inc(identifier_data, value, default=default)` — the source omits the
driver's required keyword-only `lock` argument (value.py:250). -/
def valueInc (registeredDefault : Option PyVal) (d : StubDriver) (value : Int)
    (override : Option Int) : Except PyErr (Int × StubDriver) :=
  let dflt : Option PyVal :=
    match override with
    | some n => some (.int n)
    | Option.none => valueDefault registeredDefault
  match dflt with
  | some dv =>
    if dv.isNumber then baseDriverInc d value dv.numVal Option.none
    else .error .valueError
  | Option.none => .error .valueError

/-- One serialized batch of `BaseDriver.inc` calls, each adding `value` with
default `default` and the lock correctly supplied: since every call holds the
path's lock for its whole read-modify-write, any concurrent execution of the
batch is equivalent to this sequential composition. -/
def iterIncLocked (d : StubDriver) (value default : Int) : Nat → Except PyErr StubDriver
  | 0 => .ok d
  | n + 1 =>
    match baseDriverInc d value default (some ()) with
    | .ok (_, d2) => iterIncLocked d2 value default n
    | .error e => .error e

/-- BaseDriver.extend (drivers/base.py:164-197): under the lock, read the
stored list (falling back to `default` on KeyError, StoredTypeError when the
stored value is not a list), prepend or append `value`, then, when
`max_length` is set and exceeded, truncate — `existing[oversize:]` after an
append, `existing[:max_length]` after a prepend — and write back. -/
def baseDriverExtend (d : StubDriver) (value : List PyVal)
    (default : List PyVal) (lock : LockArg) (maxLength : Option Int)
    (extendLeft : Bool) : Except PyErr (List PyVal × StubDriver) :=
  match lock with
  | Option.none => .error .typeError
  | some _ =>
    let existingRes : Except PyErr (List PyVal) :=
      match driverGet d with
      | .ok (.list xs) => .ok xs
      | .ok _ => .error .storedTypeError
      | .error _ => .ok default
    match existingRes with
    | .error e => .error e
    | .ok existing =>
      let extended := if extendLeft then value ++ existing else existing ++ value
      let final :=
        match maxLength with
        | some m =>
          let oversizeBy : Int := (extended.length : Int) - m
          if oversizeBy > 0 then
            if extendLeft then pySliceTo extended m
            else pySliceFrom extended oversizeBy
          else extended
        | Option.none => extended
      .ok (final, driverSet d (.list final))

/-- Python's `x.index(item)` attribute call as made by `BaseDriver.index`
(drivers/base.py:230): lists do a linear `==` search (ValueError when the
item is not present); strings also have an `index` method, which does
substring search (ValueError when absent, TypeError for a non-string needle);
every other JSON value lacks the attribute and raises AttributeError. -/
def pyDotIndex (existing item : PyVal) : Except PyErr PyVal :=
  match existing with
  | .list xs => listIndexSearch xs item 0
  | .str s =>
    match item with
    | .str t =>
      match strFind t.data s.data 0 with
      | some i => .ok (.int i)
      | Option.none => .error .valueError
    | _ => .error .typeError
  | _ => .error .attributeError
where
  /-- Linear search of Python `list.index`, comparing with `==`. -/
  listIndexSearch : List PyVal → PyVal → Nat → Except PyErr PyVal
    | [], _, _ => .error .valueError
    | x :: xs, item, i =>
      if pyEq x item then .ok (.int i) else listIndexSearch xs item (i + 1)
  /-- Whether the needle starts the haystack. -/
  startsWithChars : List Char → List Char → Bool
    | [], _ => true
    | _ :: _, [] => false
    | c :: cs, h :: hs => c == h && startsWithChars cs hs
  /-- First position at which the needle occurs in the haystack. -/
  strFind (needle : List Char) : List Char → Nat → Option Nat
    | hay, i =>
      if startsWithChars needle hay then some i
      else
        match hay with
        | [] => Option.none
        | _ :: rest => strFind needle rest (i + 1)

/-- BaseDriver.index (drivers/base.py:227-234): `get` the stored value — a
missing key's KeyError propagates — then call its `index` method; only an
AttributeError (no such method) is converted to StoredTypeError, so other
exceptions, including a string's substring search, pass through. -/
def baseDriverIndex (d : StubDriver) (value : PyVal) : Except PyErr PyVal :=
  match driverGet d with
  | .ok existing =>
    match pyDotIndex existing value with
    | .error .attributeError => .error .storedTypeError
    | r => r
  | .error e => .error e

/-- BaseDriver.at (drivers/base.py:236-241): `get` the stored value (KeyError
propagates), StoredTypeError unless it is a list, then Python subscript with
negative-index support (IndexError out of range). -/
def baseDriverAt (d : StubDriver) (index : Int) : Except PyErr PyVal :=
  match driverGet d with
  | .ok v =>
    match v with
    | .list xs => pyListGet xs index
    | _ => .error .storedTypeError
  | .error e => .error e

/-- Python's subscript `x[i]` on an arbitrary value, as used by
`self.default[index]` in Array.at (array.py:59): lists index with negatives,
strings index to one-character strings, dicts look keys up (KeyError when
absent), everything else raises TypeError. -/
def pySubscript (v index : PyVal) : Except PyErr PyVal :=
  match v with
  | .list xs =>
    if index.isNumber then pyListGet xs index.numVal else .error .typeError
  | .str s =>
    if index.isNumber then
      let chars := s.data.map (fun c => PyVal.str (String.mk [c]))
      pyListGet chars index.numVal
    else .error .typeError
  | .dict es =>
    match assocFind es index with
    | some w => .ok w
    | Option.none => .error .keyError
  | _ => .error .typeError

/-- Array.index (array.py:49-53): try the driver's linear search; on KeyError
(no stored value) evaluate `with_defaults is True and self.default.index(obj)`
— Python's `and` short-circuits, so with `with_defaults=False` the expression
is the boolean False itself and the registered default is never consulted. -/
def arrayIndex (registeredDefault : Option PyVal) (d : StubDriver)
    (obj : PyVal) (withDefaults : Bool) : Except PyErr PyVal :=
  match baseDriverIndex d obj with
  | .error .keyError =>
    if withDefaults then
      pyDotIndex ((valueDefault registeredDefault).getD .none) obj
    else .ok (.bool false)
  | r => r

/-- Array.at (array.py:55-59): try the driver's positional access; on
KeyError evaluate `with_defaults is True and self.default[index]`, which with
`with_defaults=False` short-circuits to the boolean False. -/
def arrayAt (registeredDefault : Option PyVal) (d : StubDriver) (index : Int)
    (withDefaults : Bool) : Except PyErr PyVal :=
  match baseDriverAt d index with
  | .error .keyError =>
    if withDefaults then
      pySubscript ((valueDefault registeredDefault).getD .none) (.int index)
    else .ok (.bool false)
  | r => r

/-- The mutable state a ValueContextManager acts on: the backend plus whether
this manager's path lock is currently held. -/
structure CtxState where
  driver : StubDriver
  lockHeld : Bool
deriving Repr

/-- ValueContextManager.__aenter__ (value.py:43-54): acquire the lock when
requested, await the wrapped get coroutine, require the result mutable (list
or dict, TypeError otherwise) and snapshot a deep copy (`pickle` round-trip;
the identity on immutable embedded values) for the exit comparison.  Returns
the yielded value — which is also the snapshot — and the new state. -/
def ctxEnter (acquireLock : Bool) (registeredDefault : Option PyVal)
    (override : Option PyVal) (st : CtxState) :
    Except PyErr (PyVal × CtxState) :=
  let st2 : CtxState := if acquireLock then { st with lockHeld := true } else st
  let raw := valueGet registeredDefault override st2.driver
  if raw.isList || raw.isDict then .ok (raw, st2)
  else .error .typeError

/-- ValueContextManager.__aexit__ (value.py:56-66): string-key the yielded
value when it is a dict, compare with the snapshot by Python `!=`, and when
they differ write the yielded value back through `Value.set` — even when the
body raised, the exception (`exc`) being re-raised afterwards since
`__aexit__` returns None; finally release the lock when it was acquired. -/
def ctxExit (acquireLock : Bool) (rawValue originalValue : PyVal)
    (exc : Option PyErr) (st : CtxState) : CtxState × Option PyErr :=
  let cmpValue :=
    match rawValue with
    | .dict es => PyVal.dict (strKeyDict es)
    | v => v
  let st2 :=
    if pyEq cmpValue originalValue then st
    else { st with driver := valueSet st.driver rawValue }
  let st3 := if acquireLock then { st2 with lockHeld := false } else st2
  (st3, exc)

/-- Primary-key arity of the built-in scope categories
(utils.py:39-46, `_CATEGORY_PKEY_COUNTS`). -/
def builtinPkeyLen : String → Option Nat
  | "GLOBAL" => some 0
  | "GUILD" => some 1
  | "TEXTCHANNEL" => some 1
  | "ROLE" => some 1
  | "USER" => some 1
  | "MEMBER" => some 2
  | _ => Option.none

/-- ConfigCategory.get_pkey_info (utils.py:23-36): a built-in category name
yields its fixed arity, anything else is looked up in the custom-group
registry (KeyError when absent). -/
def getPkeyInfo (category : String) (customGroups : List (String × Nat)) :
    Except PyErr (Nat × Bool) :=
  match builtinPkeyLen category with
  | some n => .ok (n, false)
  | Option.none =>
    match customGroups.lookup category with
    | some n => .ok (n, true)
    | Option.none => .error .keyError

/-- The composite path identifier (identifier_data.py:8-25). -/
structure IdentifierData where
  cogName : String
  uuid : String
  category : String
  primaryKey : List String
  identifiers : List String
  primaryKeyLen : Nat
  isCustom : Bool
deriving Repr, DecidableEq

/-- Config.init_custom (config.py:332-339): first-time registration of a
custom category records its arity; *any* repeated registration raises
ValueError, whatever arity it asks for. -/
def configInitCustom (customGroups : List (String × Nat))
    (groupIdentifier : String) (identifierCount : Nat) :
    Except PyErr (List (String × Nat)) :=
  match customGroups.lookup groupIdentifier with
  | some _ => .error .valueError
  | Option.none => .ok (customGroups ++ [(groupIdentifier, identifierCount)])

/-- Config._get_base_group (config.py:341-353) for one cog. -/
def configGetBaseGroup (cogName uuid : String)
    (customGroups : List (String × Nat)) (category : String)
    (primaryKeys : List String) : Except PyErr IdentifierData :=
  match getPkeyInfo category customGroups with
  | .error e => .error e
  | .ok (pkeyLen, isCustom) =>
    .ok {
      cogName := cogName
      uuid := uuid
      category := category
      primaryKey := primaryKeys
      identifiers := []
      primaryKeyLen := pkeyLen
      isCustom := isCustom
    }

/-- Config.custom (config.py:469-488): raise ValueError when the category was
never passed to `init_custom`, otherwise build the custom base group with the
given (stringified) identifiers as primary keys. -/
def configCustom (cogName uuid : String) (customGroups : List (String × Nat))
    (groupIdentifier : String) (identifiers : List String) :
    Except PyErr IdentifierData :=
  match customGroups.lookup groupIdentifier with
  | Option.none => .error .valueError
  | some _ => configGetBaseGroup cogName uuid customGroups groupIdentifier identifiers

/-- No entry of the dict has a key `==`-equal to the given key. -/
def keyAbsent : PyVal → List (PyVal × PyVal) → Bool
  | _, [] => true
  | k, (k2, _) :: rest => !(pyEq k k2) && keyAbsent k rest

/-- One dict level has string keys, pairwise distinct under Python `==`. -/
def strNodupKeys : List (PyVal × PyVal) → Bool
  | [] => true
  | (k, _) :: rest => k.isStr && keyAbsent k rest && strNodupKeys rest

mutual

/-- Every dict level reachable through dict values has string keys, no two of
which coincide — the shape of every stored document (keys pass through
`str_key_dict`) and of every registered default tree (field names). -/
def wellKeyed : PyVal → Bool
  | .dict es => strNodupKeys es && wellKeyedEntries es
  | _ => true

/-- Values of a dict's entries are each well-keyed. -/
def wellKeyedEntries : List (PyVal × PyVal) → Bool
  | [] => true
  | (_, v) :: rest => wellKeyed v && wellKeyedEntries rest

end

mutual

/-- Shape compatibility of a stored document with a default tree: wherever
the document holds a dict, the default at that key — when there is one — is
itself a dict (recursively).  This is what rules out the mixed dict/scalar
overlays that group.py:357-379 resolves inconsistently. -/
def shapeCompatEntries : List (PyVal × PyVal) → List (PyVal × PyVal) → Bool
  | [], _ => true
  | (k, v) :: rest, dents => shapeCompatVal k v dents && shapeCompatEntries rest dents
termination_by es _ => sizeOf es

/-- Shape compatibility of one stored entry with the default tree level. -/
def shapeCompatVal (k v : PyVal) (dents : List (PyVal × PyVal)) : Bool :=
  match v with
  | .dict ventries =>
    match assocFind dents k with
    | some (.dict dsub) => shapeCompatEntries ventries dsub
    | some _ => false
    | Option.none => shapeCompatEntries ventries []
  | _ => true
termination_by sizeOf k + sizeOf v

end

/-- The round trip of claim C2: `Value.set(v)` on this path followed by a get
of the same path (`Value.__call__` awaited, i.e. `Value._get`). -/
def valueRoundTrip (registeredDefault : Option PyVal) (d : StubDriver)
    (v : PyVal) : PyVal :=
  valueGet registeredDefault Option.none (valueSet d v)

mutual

/-- Stated from the words of claim C2, for comparison with the code: the
transformation the claim says a round trip applies — every dict key, at every
level of nesting (including dicts that sit inside lists), converted to its
string form. -/
def claimStrAllKeys : PyVal → PyVal
  | .dict es => .dict (claimStrAllKeysEntries es)
  | .list xs => .list (claimStrAllKeysList xs)
  | v => v

/-- Entry-wise key stringification for `claimStrAllKeys`. -/
def claimStrAllKeysEntries : List (PyVal × PyVal) → List (PyVal × PyVal)
  | [] => []
  | (k, v) :: rest => (.str (pyStr k), claimStrAllKeys v) :: claimStrAllKeysEntries rest

/-- Element-wise recursion of `claimStrAllKeys` through lists. -/
def claimStrAllKeysList : List PyVal → List PyVal
  | [] => []
  | x :: rest => claimStrAllKeys x :: claimStrAllKeysList rest

end

mutual

/-- Every dict key is a string at every dict level reachable through dict
values (dicts inside lists are not inspected) — the guarantee `str_key_dict`
actually provides. -/
def dictChainKeysStr : PyVal → Bool
  | .dict es => dictChainKeysStrEntries es
  | _ => true

/-- Entry-wise check for `dictChainKeysStr`. -/
def dictChainKeysStrEntries : List (PyVal × PyVal) → Bool
  | [] => true
  | (k, v) :: rest => k.isStr && dictChainKeysStr v && dictChainKeysStrEntries rest

end

/-- The ok-projection of an `Except` result. -/
def exOk : Except PyErr PyVal → Option PyVal
  | .ok v => some v
  | .error _ => Option.none

theorem pyEq_str_iff {s : String} {b : PyVal} : pyEq (.str s) b = true ↔ b = .str s := by
  cases b <;> simp [pyEq]
  exact eq_comm

theorem pyEq_str_iff2 {s : String} {b : PyVal} : pyEq b (.str s) = true ↔ b = .str s := by
  cases b <;> simp [pyEq]

theorem assocFind_keyAbsent {k : PyVal} {es : List (PyVal × PyVal)}
    (h : keyAbsent k es = true) : assocFind es k = Option.none := by
  induction es with
  | nil => rfl
  | cons kv rest ih =>
    obtain ⟨k2, v2⟩ := kv
    simp [keyAbsent] at h
    simp [assocFind, h.1, ih h.2]

theorem assocFind_assocSet (es : List (PyVal × PyVal)) (s : String) (v q : PyVal) :
    assocFind (assocSet es (.str s) v) q =
      if pyEq q (.str s) then some v else assocFind es q := by
  induction es with
  | nil => simp [assocSet, assocFind]
  | cons kv rest ih =>
    obtain ⟨k2, v2⟩ := kv
    by_cases hk : pyEq (.str s) k2 = true
    · have hk2 : k2 = PyVal.str s := pyEq_str_iff.mp hk
      subst hk2
      simp only [assocSet, hk, if_true, assocFind]
      by_cases hq : pyEq q (.str s) = true <;> simp [hq]
    · simp only [assocSet, hk, if_false, Bool.false_eq_true]
      by_cases hq : pyEq q k2 = true
      · have : pyEq q (.str s) = false := by
          by_contra hcon
          simp only [Bool.not_eq_false] at hcon
          have hqs : q = PyVal.str s := pyEq_str_iff2.mp hcon
          subst hqs
          exact hk (by simpa using hq)
        simp [assocFind, hq, this]
      · simp only [assocFind, hq, if_false, Bool.false_eq_true]
        exact ih

/-- Slice from a left bound of the form len - m, with m below the length. -/
theorem pySliceFrom_sub (xs : List PyVal) (mv : Nat) (h : mv < xs.length) :
    pySliceFrom xs ((xs.length : Int) - mv) = xs.drop (xs.length - mv) := by
  unfold pySliceFrom
  have h0 : ¬(((xs.length : Int) - mv) < 0) := by omega
  rw [if_neg h0]
  congr 1
  omega

/-- Slice to a natural right bound. -/
theorem pySliceTo_nat (xs : List PyVal) (mv : Nat) :
    pySliceTo xs (mv : Int) = xs.take mv := by
  unfold pySliceTo
  have h0 : ¬((mv : Int) < 0) := by omega
  rw [if_neg h0]
  simp

/-- C4: for every stored list L (or the registered default when the key is
absent) and items I, BaseDriver.extend writes back and returns the
concatenation C (= L ++ I when appending, I ++ L when prepending) when
max_length is unset or not exceeded, and otherwise the last m elements of C
when appending (overflow dropped from the front) resp. the first m elements
of C when prepending (overflow dropped from the back). -/
theorem extend_bounded_policy (d : StubDriver) (L I default R : List PyVal)
    (m : Option Nat) (p : Bool)
    (h : d.data = some (.list L) ∨ (d.data = Option.none ∧ default = L))
    (hR : R = match m with
      | Option.none => if p then I ++ L else L ++ I
      | some mv =>
        if (if p then I ++ L else L ++ I).length ≤ mv then
          if p then I ++ L else L ++ I
        else if p then (if p then I ++ L else L ++ I).take mv
        else (if p then I ++ L else L ++ I).drop
          ((if p then I ++ L else L ++ I).length - mv)) :
    baseDriverExtend d I default (some ())
      (match m with
        | some mv => some ((mv : Int))
        | Option.none => Option.none) p =
      .ok (R, driverSet d (.list R)) := by
  subst hR
  have hread : ∀ G : Except PyErr PyVal, G = .ok (.list L) ∨ (G = .error .keyError ∧ default = L) →
      (match G with
        | Except.ok (.list xs) => Except.ok xs
        | Except.ok _ => Except.error PyErr.storedTypeError
        | Except.error _ => Except.ok default) = (Except.ok L : Except PyErr (List PyVal)) := by
    rintro G (hG | ⟨hG, hdef⟩)
    · rw [hG]
    · rw [hG, hdef]
  have hG : driverGet d = .ok (.list L) ∨ (driverGet d = .error .keyError ∧ default = L) := by
    rcases h with hd | ⟨hd, hdef⟩
    · exact Or.inl (by simp [driverGet, hd])
    · exact Or.inr ⟨by simp [driverGet, hd], hdef⟩
  cases m with
  | none =>
    simp only [baseDriverExtend, hread (driverGet d) hG]
  | some mv =>
    simp only [baseDriverExtend, hread (driverGet d) hG]
    cases p
    · simp only [Bool.false_eq_true, if_false]
      by_cases hlen : (L ++ I).length ≤ mv
      · have h1 : ¬((((L ++ I).length : Int) - (mv : Int)) > 0) := by omega
        rw [if_neg h1, if_pos hlen]
      · have h1 : (((L ++ I).length : Int) - (mv : Int)) > 0 := by omega
        rw [if_pos h1, if_neg hlen, pySliceFrom_sub _ mv (by omega)]
    · simp only [if_true]
      by_cases hlen : (I ++ L).length ≤ mv
      · have h1 : ¬((((I ++ L).length : Int) - (mv : Int)) > 0) := by omega
        rw [if_neg h1, if_pos hlen]
      · have h1 : (((I ++ L).length : Int) - (mv : Int)) > 0 := by omega
        rw [if_pos h1, if_neg hlen, pySliceTo_nat]

/-- Witness for C4: extend([3,4], max_length=5) on stored [0,1,2] yields
[0,1,2,3,4]; a further extend([-3,-2], max_length=3, prepend=True) on that
yields [-3,-2,0]. -/
theorem extend_bounded_policy_witness :
    baseDriverExtend ⟨some (.list [.int 0, .int 1, .int 2]), 0⟩ [.int 3, .int 4] []
        (some ()) (some 5) false =
      .ok ([.int 0, .int 1, .int 2, .int 3, .int 4],
        ⟨some (.list [.int 0, .int 1, .int 2, .int 3, .int 4]), 1⟩) ∧
    baseDriverExtend ⟨some (.list [.int 0, .int 1, .int 2, .int 3, .int 4]), 1⟩
        [.int (-3), .int (-2)] [] (some ()) (some 3) true =
      .ok ([.int (-3), .int (-2), .int 0],
        ⟨some (.list [.int (-3), .int (-2), .int 0]), 2⟩) :=
  ⟨extend_bounded_policy _ [.int 0, .int 1, .int 2] [.int 3, .int 4] [] _
      (some 5) false (Or.inl rfl) rfl,
    extend_bounded_policy _ [.int 0, .int 1, .int 2, .int 3, .int 4]
      [.int (-3), .int (-2)] [] _ (some 3) true (Or.inl rfl) rfl⟩

/-- C9: when no value is stored at an Array's path, `Array.index` and
`Array.at` called with `with_defaults=False` return the boolean False — no
NotFound/ValueError/IndexError escapes and the registered default list is
never consulted (the result does not depend on it). -/
theorem array_index_at_no_defaults (rd : Option PyVal) (d : StubDriver)
    (obj : PyVal) (i : Int) (hd : d.data = Option.none) :
    arrayIndex rd d obj false = .ok (.bool false) ∧
    arrayAt rd d i false = .ok (.bool false) := by
  constructor
  · simp [arrayIndex, baseDriverIndex, driverGet, hd]
  · simp [arrayAt, baseDriverAt, driverGet, hd]

/-- Witness for C9: with a registered default list present and nothing
stored, index and positional access with with_defaults=False yield False. -/
theorem array_index_at_no_defaults_witness :
    arrayIndex (some (.list [.int 9])) ⟨Option.none, 0⟩ (.int 9) false = .ok (.bool false) ∧
    arrayAt (some (.list [.int 9])) ⟨Option.none, 0⟩ 0 false = .ok (.bool false) :=
  array_index_at_no_defaults (some (.list [.int 9])) ⟨Option.none, 0⟩ (.int 9) 0 rfl

/-- C10: the default driver `inc` accepts a stored boolean — Python's
`isinstance(b, (int, float))` is true for bools — treating it as 0 or 1 and
storing the plain integer sum, with no TypeMismatch raised. -/
theorem inc_accepts_boolean (d : StubDriver) (b : Bool) (delta dflt : Int)
    (hd : d.data = some (.bool b)) :
    baseDriverInc d delta dflt (some ()) =
      .ok ((if b then 1 else 0) + delta,
        driverSet d (.int ((if b then 1 else 0) + delta))) := by
  simp [baseDriverInc, driverGet, hd, PyVal.isNumber, PyVal.numVal]

/-- Witness for C10: a stored True incremented by 1 returns 2 and stores the
integer 2. -/
theorem inc_accepts_boolean_witness :
    baseDriverInc ⟨some (.bool true), 0⟩ 1 0 (some ()) =
      .ok (2, ⟨some (.int 2), 1⟩) := by
  have h := inc_accepts_boolean ⟨some (.bool true), 0⟩ true 1 0 rfl
  simpa using h

theorem iterIncLocked_adds (value default : Int) :
    ∀ (N : Nat) (d : StubDriver) (k : Int), d.data = some (.int k) →
    ∃ d2, iterIncLocked d value default N = .ok d2 ∧
      d2.data = some (.int (k + N * value)) := by
  intro N
  induction N with
  | zero =>
    intro d k hd
    exact ⟨d, rfl, by simpa using hd⟩
  | succ n ih =>
    intro d k hd
    obtain ⟨d2, h1, h2⟩ := ih (driverSet d (.int (k + value))) (k + value) rfl
    refine ⟨d2, ?_, ?_⟩
    · simp only [iterIncLocked, baseDriverInc, driverGet, hd, PyVal.isNumber,
        PyVal.numVal, if_true]
      exact h1
    · rw [h2]
      have : k + value + (n : Int) * value = k + ((n : Nat) + 1 : Nat) * value := by
        push_cast
        ring
      rw [this]

/-- C3: the claim fails on the code.  First conjunct: a single `Value.inc(1)`
against a path storing 0, backed by the default `BaseDriver.inc`, raises
TypeError — value.py:250 omits the driver's required keyword-only `lock`
argument — so the increment never happens and the stored value stays 0 (N
concurrent calls leave 0, not N).  Second conjunct: the claim's intent does
hold of `BaseDriver.inc` itself when the lock is supplied — N serialized
increment-by-1 calls starting from a stored 0 end with exactly N stored. -/
theorem concurrent_inc_serialization :
    valueInc (some (.int 0)) ⟨some (.int 0), 0⟩ 1 Option.none = .error .typeError ∧
    (∀ N : Nat, ∃ d2, iterIncLocked ⟨some (.int 0), 0⟩ 1 0 N = .ok d2 ∧
        d2.data = some (.int N)) := by
  constructor
  · simp [valueInc, valueDefault, PyVal.isNumber, PyVal.numVal, baseDriverInc]
  · intro N
    obtain ⟨d2, h1, h2⟩ := iterIncLocked_adds 1 0 N ⟨some (.int 0), 0⟩ 0 rfl
    exact ⟨d2, h1, by simpa using h2⟩

theorem lookup_append_self (cg : List (String × Nat)) (X : String) (n : Nat)
    (h : cg.lookup X = Option.none) : (cg ++ [(X, n)]).lookup X = some n := by
  induction cg with
  | nil => simp [List.lookup]
  | cons kv rest ih =>
    obtain ⟨k, v⟩ := kv
    by_cases hX : (X == k) = true
    · simp [List.lookup, hX] at h
    · simp only [List.lookup, List.cons_append, hX] at h ⊢
      exact ih h

/-- C8: for an unregistered custom category X, `custom(X, a, b, c)` raises
ValueError; a first `init_custom(X, n)` succeeds and records arity n; any
later `init_custom(X, m)` with a different arity raises ValueError. -/
theorem custom_category_arity (cog uuid : String) (cg : List (String × Nat))
    (X a b c : String) (n : Nat)
    (hX : cg.lookup X = Option.none) :
    configCustom cog uuid cg X [a, b, c] = .error .valueError ∧
    ∃ cg2, configInitCustom cg X n = .ok cg2 ∧ cg2.lookup X = some n ∧
      (∀ m : Nat, m ≠ n → configInitCustom cg2 X m = .error .valueError) := by
  refine ⟨by simp [configCustom, hX], cg ++ [(X, n)], by simp [configInitCustom, hX],
    lookup_append_self cg X n hX, ?_⟩
  intro m _
  simp [configInitCustom, lookup_append_self cg X n hX]

/-- Witness for C8: with an empty registry, custom("X", ...) raises, a first
init_custom("X", 3) succeeds, and init_custom("X", 2) afterwards raises. -/
theorem custom_category_arity_witness :
    configCustom "Core" "0" [] "X" ["1", "2", "3"] = .error .valueError ∧
    ∃ cg2, configInitCustom [] "X" 3 = .ok cg2 ∧ cg2.lookup "X" = some 3 ∧
      (∀ m : Nat, m ≠ 3 → configInitCustom cg2 "X" m = .error .valueError) :=
  custom_category_arity "Core" "0" [] "X" "1" "2" "3" 3 rfl

/-- C5 (amended): on stored ["bar","baz","foobar"], index_of("baz") is 1,
at(-1) is "foobar", at(3) and at(-4) raise IndexError, index_of("bang")
raises ValueError; index_of raises KeyError (NotFound) whenever the key is
absent; it raises StoredTypeError (TypeMismatch) when the stored value is
neither a list nor a string; but a stored *string* is searched as a substring
via str.index instead of raising TypeMismatch. -/
theorem index_at_boundary :
    (∀ d : StubDriver,
      d.data = some (.list [.str "bar", .str "baz", .str "foobar"]) →
      baseDriverIndex d (.str "baz") = .ok (.int 1) ∧
      baseDriverAt d (-1) = .ok (.str "foobar") ∧
      baseDriverAt d 3 = .error .indexError ∧
      baseDriverAt d (-4) = .error .indexError ∧
      baseDriverIndex d (.str "bang") = .error .valueError) ∧
    (∀ (d : StubDriver) (item : PyVal), d.data = Option.none →
      baseDriverIndex d item = .error .keyError) ∧
    (∀ (d : StubDriver) (v item : PyVal), d.data = some v →
      v.isList = false → v.isStr = false →
      baseDriverIndex d item = .error .storedTypeError) ∧
    (∀ (d : StubDriver) (s t : String), d.data = some (.str s) →
      baseDriverIndex d (.str t) =
        match pyDotIndex.strFind t.data s.data 0 with
        | some i => .ok (.int i)
        | Option.none => .error .valueError) := by
  refine ⟨?_, ?_, ?_, ?_⟩
  · intro d hd
    refine ⟨?_, ?_, ?_, ?_, ?_⟩ <;>
      simp [baseDriverIndex, baseDriverAt, driverGet, hd, pyDotIndex,
        pyDotIndex.listIndexSearch, pyEq, pyListGet]
  · intro d item hd
    simp [baseDriverIndex, driverGet, hd]
  · intro d v item hd hlist hstr
    cases v <;>
      simp_all [baseDriverIndex, driverGet, pyDotIndex, PyVal.isList, PyVal.isStr]
  · intro d s t hd
    simp only [baseDriverIndex, driverGet, hd, pyDotIndex]
    cases hfind : pyDotIndex.strFind t.data s.data 0 <;> simp [hfind]

/-- Witness for C5: the concrete boundary scenario on the stub driver. -/
theorem index_at_boundary_witness :
    baseDriverIndex ⟨some (.list [.str "bar", .str "baz", .str "foobar"]), 0⟩
        (.str "baz") = .ok (.int 1) ∧
    baseDriverAt ⟨some (.list [.str "bar", .str "baz", .str "foobar"]), 0⟩
        (-1) = .ok (.str "foobar") ∧
    baseDriverAt ⟨some (.list [.str "bar", .str "baz", .str "foobar"]), 0⟩
        3 = .error .indexError := by
  have h := index_at_boundary.1
    ⟨some (.list [.str "bar", .str "baz", .str "foobar"]), 0⟩ rfl
  exact ⟨h.1, h.2.1, h.2.2.1⟩

/-- Counterexample for C5 as stated: a stored string is not a list, yet
index_of does not raise TypeMismatch — str has an `index` method, so
index_of("a") on stored "bar" does substring search and returns 1. -/
theorem index_nonlist_cex :
    baseDriverIndex ⟨some (.str "bar"), 0⟩ (.str "a") = .ok (.int 1) ∧
    (Except.ok (.int 1) : Except PyErr PyVal) ≠ .error .storedTypeError := by
  constructor
  · simp [baseDriverIndex, driverGet, pyDotIndex, pyDotIndex.strFind,
      pyDotIndex.startsWithChars]
  · simp

/-- C6: when a MutationScope body has changed the yielded structure (the
string-keyed copy no longer compares == to the entry snapshot) and then
raises, `__aexit__` still writes the changed structure back via `set` before
the exception propagates unchanged, and the lock, when it was acquired on
entry, is released. -/
theorem mutation_scope_writes_before_raise (acquireLock : Bool)
    (raw orig : PyVal) (e : PyErr) (st : CtxState)
    (hchanged : pyEq (match raw with
      | .dict es => PyVal.dict (strKeyDict es)
      | v => v) orig = false) :
    (ctxExit acquireLock raw orig (some e) st).1.driver = valueSet st.driver raw ∧
    (ctxExit acquireLock raw orig (some e) st).2 = some e ∧
    (acquireLock = true → (ctxExit acquireLock raw orig (some e) st).1.lockHeld = false) := by
  simp only [ctxExit, hchanged, Bool.false_eq_true, if_false]
  cases acquireLock <;> simp

/-- Witness for C6: a body that changed {"a": 1} to {"a": 2} and raised
ValueError still gets its change persisted, the lock dropped, and the
exception re-raised. -/
theorem mutation_scope_writes_before_raise_witness :
    (ctxExit true (.dict [(.str "a", .int 2)]) (.dict [(.str "a", .int 1)])
        (some .valueError)
        ⟨⟨some (.dict [(.str "a", .int 1)]), 0⟩, true⟩).1.driver =
      valueSet ⟨some (.dict [(.str "a", .int 1)]), 0⟩ (.dict [(.str "a", .int 2)]) ∧
    (ctxExit true (.dict [(.str "a", .int 2)]) (.dict [(.str "a", .int 1)])
        (some .valueError)
        ⟨⟨some (.dict [(.str "a", .int 1)]), 0⟩, true⟩).2 = some .valueError ∧
    (true = true → (ctxExit true (.dict [(.str "a", .int 2)]) (.dict [(.str "a", .int 1)])
        (some .valueError)
        ⟨⟨some (.dict [(.str "a", .int 1)]), 0⟩, true⟩).1.lockHeld = false) :=
  mutation_scope_writes_before_raise true (.dict [(.str "a", .int 2)])
    (.dict [(.str "a", .int 1)]) .valueError
    ⟨⟨some (.dict [(.str "a", .int 1)]), 0⟩, true⟩
    (by simp [strKeyDict, strKeyGo, strKeyVal, assocSet, pyStr, pyEq,
      pyEqEntries, pyFindEq])

/-- C7: a MutationScope whose yielded structure is, on exit (normal or
exceptional), still == to the entry snapshot after string-keying performs no
driver `set` at all: the backend (stored document and write counter alike) is
exactly as it was before entry, and the exit outcome is passed through. -/
theorem mutation_scope_no_op_write (acquireLock : Bool)
    (rd override : Option PyVal) (st : CtxState) (raw final : PyVal)
    (st1 : CtxState) (exc : Option PyErr)
    (henter : ctxEnter acquireLock rd override st = .ok (raw, st1))
    (hsame : pyEq (match final with
      | .dict es => PyVal.dict (strKeyDict es)
      | v => v) raw = true) :
    (ctxExit acquireLock final raw exc st1).1.driver = st.driver ∧
    (ctxExit acquireLock final raw exc st1).2 = exc := by
  have key : ∀ (cond : Bool) (v : PyVal) (s2 : CtxState),
      (if cond then Except.ok (v, s2) else Except.error PyErr.typeError) =
        Except.ok (raw, st1) → st1 = s2 := by
    intro cond v s2 h
    cases cond
    · simp at h
    · simp at h
      exact h.2.symm
  have hdriver : st1.driver = st.driver := by
    unfold ctxEnter at henter
    have hst : st1 = (if acquireLock then { st with lockHeld := true } else st) :=
      key _ _ _ henter
    rw [hst]
    cases acquireLock <;> simp
  simp only [ctxExit, hsame, if_true]
  cases acquireLock <;> simp [hdriver]

/-- Witness for C7: entering on a stored {"a": 1} and exiting (with an
exception in flight) with the structure unchanged leaves the backend
untouched, write counter included. -/
theorem mutation_scope_no_op_write_witness :
    (ctxExit true (.dict [(.str "a", .int 1)]) (.dict [(.str "a", .int 1)])
        (some .valueError)
        ⟨⟨some (.dict [(.str "a", .int 1)]), 0⟩, true⟩).1.driver =
      (⟨some (.dict [(.str "a", .int 1)]), 0⟩ : StubDriver) ∧
    (ctxExit true (.dict [(.str "a", .int 1)]) (.dict [(.str "a", .int 1)])
        (some .valueError)
        ⟨⟨some (.dict [(.str "a", .int 1)]), 0⟩, true⟩).2 = some .valueError :=
  mutation_scope_no_op_write true (some (.dict [(.str "a", .int 1)])) Option.none
    ⟨⟨some (.dict [(.str "a", .int 1)]), 0⟩, false⟩
    (.dict [(.str "a", .int 1)]) (.dict [(.str "a", .int 1)])
    ⟨⟨some (.dict [(.str "a", .int 1)]), 0⟩, true⟩ (some .valueError)
    (by simp [ctxEnter, valueGet, driverGet, PyVal.isDict])
    (by simp [strKeyDict, strKeyGo, strKeyVal, assocSet, pyStr, pyEq,
      pyEqEntries, pyFindEq])

theorem dictChain_assocSet (s : String) (w : PyVal) :
    ∀ ret, dictChainKeysStrEntries ret = true → dictChainKeysStr w = true →
    dictChainKeysStrEntries (assocSet ret (.str s) w) = true := by
  intro ret
  induction ret with
  | nil =>
    intro _ hw
    simp [assocSet, dictChainKeysStrEntries, PyVal.isStr, hw]
  | cons kv rest ih =>
    obtain ⟨k2, v2⟩ := kv
    intro hp hw
    rw [dictChainKeysStrEntries] at hp
    simp only [Bool.and_eq_true] at hp
    by_cases hk : pyEq (.str s) k2 = true
    · simp [assocSet, hk, dictChainKeysStrEntries, hp.1.1, hw, hp.2]
    · simp [assocSet, hk, dictChainKeysStrEntries, hp.1.1, hp.1.2,
        ih hp.2 hw]

theorem strKeyGo_chain : ∀ (n : Nat) (es ret : List (PyVal × PyVal)),
    sizeOf es ≤ n → dictChainKeysStrEntries ret = true →
    dictChainKeysStrEntries (strKeyGo ret es) = true := by
  intro n
  induction n with
  | zero =>
    intro es ret h hp
    cases es with
    | nil => simpa [strKeyGo] using hp
    | cons kv rest => simp at h
  | succ n ih =>
    intro es ret h hp
    match es with
    | [] => simpa [strKeyGo] using hp
    | (k, v) :: rest =>
      rw [strKeyGo]
      have hsz : sizeOf rest ≤ n ∧ sizeOf v ≤ n := by
        have := List.cons.sizeOf_spec (k, v) rest
        have := Prod.mk.sizeOf_spec k v
        omega
      have hval : dictChainKeysStr (strKeyVal v) = true := by
        cases v with
        | dict ves =>
          rw [strKeyVal, dictChainKeysStr]
          have hves : sizeOf ves ≤ n := by
            have := List.cons.sizeOf_spec (k, PyVal.dict ves) rest
            have := Prod.mk.sizeOf_spec k (PyVal.dict ves)
            have : sizeOf (PyVal.dict ves) = 1 + sizeOf ves := by simp
            omega
          exact ih ves [] hves rfl
        | none => simp [strKeyVal, dictChainKeysStr]
        | bool b => simp [strKeyVal, dictChainKeysStr]
        | int m => simp [strKeyVal, dictChainKeysStr]
        | str t => simp [strKeyVal, dictChainKeysStr]
        | list xs => simp [strKeyVal, dictChainKeysStr]
      exact ih rest _ hsz.1 (dictChain_assocSet (pyStr k) (strKeyVal v) ret hp hval)

/-- C2 (amended): set(v) followed by get() returns v with dict keys
stringified recursively through dict values — the exact `str_key_dict`
transformation, which leaves dicts nested inside lists untouched; every dict
level reachable through dict values in the result has string keys; and in
particular set({1: True}) then get() returns {"1": True}. -/
theorem value_roundtrip :
    (∀ (rd : Option PyVal) (d : StubDriver) (v : PyVal),
      valueRoundTrip rd d v = (match v with
        | .dict es => .dict (strKeyDict es)
        | _ => v)) ∧
    (∀ es : List (PyVal × PyVal),
      dictChainKeysStrEntries (strKeyDict es) = true) ∧
    valueRoundTrip Option.none ⟨Option.none, 0⟩ (.dict [(.int 1, .bool true)]) =
      .dict [(.str "1", .bool true)] := by
  refine ⟨?_, ?_, ?_⟩
  · intro rd d v
    cases v <;> simp [valueRoundTrip, valueGet, valueSet, driverSet, driverGet]
  · intro es
    exact strKeyGo_chain (sizeOf es) es [] le_rfl rfl
  · simp [valueRoundTrip, valueGet, valueSet, driverSet, driverGet, strKeyDict,
      strKeyGo, strKeyVal, assocSet, pyStr]
    decide

/-- Counterexample for C2 as stated: a dict nested inside a list keeps its
integer key across the round trip — str_key_dict does not descend into lists
— so the output is not "v with every dict key, at every level, stringified". -/
theorem roundtrip_inner_list_cex :
    valueRoundTrip Option.none ⟨Option.none, 0⟩
        (.dict [(.str "a", .list [.dict [(.int 1, .bool true)]])]) =
      .dict [(.str "a", .list [.dict [(.int 1, .bool true)]])] ∧
    claimStrAllKeys (.dict [(.str "a", .list [.dict [(.int 1, .bool true)]])]) =
      .dict [(.str "a", .list [.dict [(.str "1", .bool true)]])] ∧
    (PyVal.dict [(.str "a", .list [.dict [(.int 1, .bool true)]])]) ≠
      .dict [(.str "a", .list [.dict [(.str "1", .bool true)]])] := by
  refine ⟨?_, ?_, ?_⟩
  · simp [valueRoundTrip, valueGet, valueSet, driverSet, driverGet, strKeyDict,
      strKeyGo, strKeyVal, assocSet, pyStr]
  · simp [claimStrAllKeys, claimStrAllKeysEntries, claimStrAllKeysList, pyStr]
    decide
  · simp

theorem pyEq_str_refl (s : String) : pyEq (.str s) (.str s) = true := by
  simp [pyEq]

theorem isStr_exists {v : PyVal} (h : v.isStr = true) : ∃ s, v = .str s := by
  cases v <;> simp_all [PyVal.isStr]

theorem go_step_nondict (pk cl : Nat) (hlev : pk ≤ cl) (key value : PyVal)
    (rest : List (PyVal × PyVal)) (dents retents : List (PyVal × PyVal))
    (hnd : value.isDict = false) :
    nestedUpdateGo pk cl ((key, value) :: rest) (.dict dents) (.dict retents) =
      nestedUpdateGo pk cl rest (.dict dents) (.dict (assocSet retents key value)) := by
  have hnotpk : ¬ cl < pk := by omega
  cases value with
  | dict ventries => simp [PyVal.isDict] at hnd
  | none =>
    rw [nestedUpdateGo]
    all_goals simp [if_neg hnotpk, pySetItem]
  | bool b =>
    rw [nestedUpdateGo]
    all_goals simp [if_neg hnotpk, pySetItem]
  | int n =>
    rw [nestedUpdateGo]
    all_goals simp [if_neg hnotpk, pySetItem]
  | str s =>
    rw [nestedUpdateGo]
    all_goals simp [if_neg hnotpk, pySetItem]
  | list xs =>
    rw [nestedUpdateGo]
    all_goals simp [if_neg hnotpk, pySetItem]

theorem go_step_dict (pk cl : Nat) (hlev : pk ≤ cl) (key : PyVal)
    (ven rest dents retents subents : List (PyVal × PyVal))
    (hsub : nestedUpdate pk cl ven ((assocFind dents key).getD (.dict [])) =
      .ok (.dict subents)) :
    nestedUpdateGo pk cl ((key, .dict ven) :: rest) (.dict dents) (.dict retents) =
      nestedUpdateGo pk cl rest (.dict dents)
        (.dict (assocSet retents key (.dict subents))) := by
  have hnotpk : ¬ cl < pk := by omega
  rw [nestedUpdateGo]
  simp only [if_neg hnotpk, dictGetOrEmpty, hsub, pySetItem]

theorem isDict_exists {v : PyVal} (h : v.isDict = true) : ∃ es, v = .dict es := by
  cases v <;> simp_all [PyVal.isDict]

theorem nestedUpdateGo_char (pk cl : Nat) (hlev : pk ≤ cl) :
    ∀ (n : Nat) (sents : List (PyVal × PyVal)), sizeOf sents ≤ n →
    ∀ (dents retents : List (PyVal × PyVal)),
    strNodupKeys sents = true → wellKeyedEntries sents = true →
    shapeCompatEntries sents dents = true →
    ∃ rents, nestedUpdateGo pk cl sents (.dict dents) (.dict retents) =
        .ok (.dict rents) ∧
      (∀ q, assocFind sents q = Option.none →
        assocFind rents q = assocFind retents q) ∧
      (∀ q v, assocFind sents q = some v → v.isDict = false →
        assocFind rents q = some v) ∧
      (∀ q ven, assocFind sents q = some (.dict ven) →
        assocFind rents q =
          exOk (nestedUpdate pk cl ven ((assocFind dents q).getD (.dict [])))) := by
  have hnotpk : ¬ cl < pk := by omega
  intro n
  induction n with
  | zero =>
    intro sents h
    exfalso
    cases sents <;> simp at h
  | succ n ih =>
    intro sents h dents retents hnodup hwk hcompat
    cases sents with
    | nil =>
      refine ⟨retents, by rw [nestedUpdateGo], fun q _ => rfl, ?_, ?_⟩
      · intro q v hq
        simp [assocFind] at hq
      · intro q ven hq
        simp [assocFind] at hq
    | cons kv rest =>
      obtain ⟨key, value⟩ := kv
      rw [strNodupKeys] at hnodup
      simp only [Bool.and_eq_true] at hnodup
      obtain ⟨⟨hkstr, habs⟩, hnodup_rest⟩ := hnodup
      obtain ⟨ks, rfl⟩ := isStr_exists hkstr
      rw [wellKeyedEntries] at hwk
      simp only [Bool.and_eq_true] at hwk
      obtain ⟨hwk_v, hwk_rest⟩ := hwk
      rw [shapeCompatEntries] at hcompat
      simp only [Bool.and_eq_true] at hcompat
      obtain ⟨hcv, hcompat_rest⟩ := hcompat
      have hszrest : sizeOf rest ≤ n := by
        have h1 := List.cons.sizeOf_spec (PyVal.str ks, value) rest
        have h2 := Prod.mk.sizeOf_spec (PyVal.str ks) value
        omega
      cases hvd : value.isDict with
      | true =>
        obtain ⟨ven, rfl⟩ := isDict_exists hvd
        have hcv' := hcv
        rw [shapeCompatVal] at hcv'
        have hdsub : ∃ dsubents,
            (assocFind dents (.str ks)).getD (.dict []) = .dict dsubents ∧
            shapeCompatEntries ven dsubents = true := by
          cases hfd : assocFind dents (.str ks) with
          | none =>
            rw [hfd] at hcv'
            exact ⟨[], rfl, by simpa using hcv'⟩
          | some w =>
            rw [hfd] at hcv'
            cases w with
            | dict dsub => exact ⟨dsub, rfl, by simpa using hcv'⟩
            | none => exact absurd hcv' (by simp)
            | bool b => exact absurd hcv' (by simp)
            | int m => exact absurd hcv' (by simp)
            | str t => exact absurd hcv' (by simp)
            | list xs => exact absurd hcv' (by simp)
        obtain ⟨dsubents, hdget, hcsub⟩ := hdsub
        rw [wellKeyed] at hwk_v
        simp only [Bool.and_eq_true] at hwk_v
        obtain ⟨hnodup_ven, hwk_ven⟩ := hwk_v
        have hszven : sizeOf ven ≤ n := by
          have h1 := List.cons.sizeOf_spec (PyVal.str ks, PyVal.dict ven) rest
          have h2 := Prod.mk.sizeOf_spec (PyVal.str ks) (PyVal.dict ven)
          have h3 : sizeOf (PyVal.dict ven) = 1 + sizeOf ven := by simp
          omega
        obtain ⟨subents, hsubgo, hs1, hs2, hs3⟩ :=
          ih ven hszven dsubents dsubents hnodup_ven hwk_ven hcsub
        have hsub : nestedUpdate pk cl ven
            ((assocFind dents (.str ks)).getD (.dict [])) = .ok (.dict subents) := by
          rw [hdget, nestedUpdate, if_neg hnotpk]
          exact hsubgo
        obtain ⟨rents, hgo_rest, hc1, hc2, hc3⟩ :=
          ih rest hszrest dents (assocSet retents (.str ks) (.dict subents))
            hnodup_rest hwk_rest hcompat_rest
        refine ⟨rents, ?_, ?_, ?_, ?_⟩
        · rw [go_step_dict pk cl hlev (.str ks) ven rest dents retents subents hsub]
          exact hgo_rest
        · intro q hq
          rw [assocFind] at hq
          by_cases hqe : pyEq q (.str ks) = true
          · rw [if_pos hqe] at hq
            exact absurd hq (by simp)
          · rw [if_neg hqe] at hq
            rw [hc1 q hq, assocFind_assocSet retents ks (.dict subents) q, if_neg hqe]
        · intro q v hq hvnd
          rw [assocFind] at hq
          by_cases hqe : pyEq q (.str ks) = true
          · rw [if_pos hqe] at hq
            have hveq := Option.some.inj hq
            rw [← hveq] at hvnd
            simp [PyVal.isDict] at hvnd
          · rw [if_neg hqe] at hq
            exact hc2 q v hq hvnd
        · intro q ven2 hq
          rw [assocFind] at hq
          by_cases hqe : pyEq q (.str ks) = true
          · have hqeq : q = .str ks := pyEq_str_iff2.mp hqe
            subst hqeq
            rw [if_pos hqe] at hq
            have hveq := Option.some.inj hq
            have hv2 : ven = ven2 := by
              injection hveq
            subst hv2
            have hrest_none : assocFind rest (.str ks) = Option.none :=
              assocFind_keyAbsent habs
            rw [hc1 (.str ks) hrest_none,
              assocFind_assocSet retents ks (.dict subents) (.str ks),
              if_pos (pyEq_str_refl ks), hsub]
            rfl
          · rw [if_neg hqe] at hq
            exact hc3 q ven2 hq
      | false =>
        obtain ⟨rents, hgo_rest, hc1, hc2, hc3⟩ :=
          ih rest hszrest dents (assocSet retents (.str ks) value)
            hnodup_rest hwk_rest hcompat_rest
        refine ⟨rents, ?_, ?_, ?_, ?_⟩
        · rw [go_step_nondict pk cl hlev (.str ks) value rest dents retents hvd]
          exact hgo_rest
        · intro q hq
          rw [assocFind] at hq
          by_cases hqe : pyEq q (.str ks) = true
          · rw [if_pos hqe] at hq
            exact absurd hq (by simp)
          · rw [if_neg hqe] at hq
            rw [hc1 q hq, assocFind_assocSet retents ks value q, if_neg hqe]
        · intro q v hq hvnd
          rw [assocFind] at hq
          by_cases hqe : pyEq q (.str ks) = true
          · have hqeq : q = .str ks := pyEq_str_iff2.mp hqe
            subst hqeq
            rw [if_pos hqe] at hq
            have hveq := Option.some.inj hq
            subst hveq
            have hrest_none : assocFind rest (.str ks) = Option.none :=
              assocFind_keyAbsent habs
            rw [hc1 (.str ks) hrest_none,
              assocFind_assocSet retents ks value (.str ks),
              if_pos (pyEq_str_refl ks)]
          · rw [if_neg hqe] at hq
            exact hc2 q v hq hvnd
        · intro q ven2 hq
          rw [assocFind] at hq
          by_cases hqe : pyEq q (.str ks) = true
          · rw [if_pos hqe] at hq
            have hveq := Option.some.inj hq
            rw [hveq] at hvd
            simp [PyVal.isDict] at hvd
          · rw [if_neg hqe] at hq
            exact hc3 q ven2 hq

/-- C1 (amended): for a registered default tree D and a stored document S at
a Group's path (string-keyed, and shape-compatible with D: wherever S stores
a dict, D's entry at that key — if any — is itself a dict), the whole-subtree
read `Group.all()` succeeds and returns a dict R in which every key of D
absent from S is bound to its registered default, every key of S with a
non-dict value appears verbatim, and every dict-valued key of S appears
merged recursively onto D's sub-dict at that key (`{}` when D has none) —
merged level by level, never replaced wholesale. -/
theorem group_read_default_overlay (pk cl : Nat) (d : StubDriver)
    (sents dents : List (PyVal × PyVal))
    (hlev : pk ≤ cl)
    (hd : d.data = some (.dict sents))
    (hS : wellKeyed (.dict sents) = true)
    (hcompat : shapeCompatEntries sents dents = true) :
    ∃ rents, groupGetAll pk cl (some (.dict dents)) d = .ok (.dict rents) ∧
      (∀ q v, assocFind dents q = some v → assocFind sents q = Option.none →
        assocFind rents q = some v) ∧
      (∀ q v, assocFind sents q = some v → v.isDict = false →
        assocFind rents q = some v) ∧
      (∀ q ven, assocFind sents q = some (.dict ven) →
        assocFind rents q =
          exOk (nestedUpdate pk cl ven ((assocFind dents q).getD (.dict [])))) := by
  have hnotpk : ¬ cl < pk := by omega
  rw [wellKeyed] at hS
  simp only [Bool.and_eq_true] at hS
  obtain ⟨hnodup, hwk⟩ := hS
  obtain ⟨rents, hgo, hc1, hc2, hc3⟩ :=
    nestedUpdateGo_char pk cl hlev (sizeOf sents) sents le_rfl dents dents
      hnodup hwk hcompat
  refine ⟨rents, ?_, ?_, hc2, hc3⟩
  · have hred : groupGetAll pk cl (some (.dict dents)) d =
        nestedUpdate pk cl sents (.dict dents) := by
      simp [groupGetAll, groupDefaults, valueDefault, valueGet, driverGet, hd]
    rw [hred, nestedUpdate, if_neg hnotpk]
    exact hgo
  · intro q v hDq hSq
    rw [hc1 q hSq, hDq]

/-- Counterexample for C1 as stated: with registered defaults {"a": 5} and
stored document {"a": {}}, Group.all() returns {"a": 5} — the stored key "a"
is not returned verbatim and its empty dict is not merged; the scalar default
wins because __nested_update recurses with the scalar as the defaults
parameter and returns its deep copy unchanged. -/
theorem group_read_overlay_cex :
    groupGetAll 0 0 (some (.dict [(.str "a", .int 5)]))
        ⟨some (.dict [(.str "a", .dict [])]), 0⟩ =
      .ok (.dict [(.str "a", .int 5)]) ∧
    assocFind [(.str "a", .dict [])] (.str "a") = some (.dict []) ∧
    (PyVal.int 5) ≠ (.dict []) := by
  refine ⟨?_, ?_, ?_⟩
  · simp [groupGetAll, groupDefaults, valueDefault, valueGet, driverGet,
      nestedUpdate, nestedUpdateGo, dictGetOrEmpty, assocFind, pySetItem,
      assocSet, pyEq]
  · simp [assocFind, pyEq_str_refl]
  · simp

/-- Witness for C1: defaults {"a": 1, "sub": {"x": 1, "y": 2}} with stored
{"sub": {"y": 3}, "extra": "z"} read back as a dict binding "a" to the
default 1, "extra" to "z" verbatim, and "sub" to the recursive merge of
{"y": 3} onto {"x": 1, "y": 2}. -/
theorem group_read_default_overlay_witness :
    ∃ rents, groupGetAll 0 0
        (some (.dict [(.str "a", .int 1),
          (.str "sub", .dict [(.str "x", .int 1), (.str "y", .int 2)])]))
        ⟨some (.dict [(.str "sub", .dict [(.str "y", .int 3)]),
          (.str "extra", .str "z")]), 0⟩ = .ok (.dict rents) ∧
      (∀ q v, assocFind [(.str "a", .int 1),
          (.str "sub", .dict [(.str "x", .int 1), (.str "y", .int 2)])] q = some v →
        assocFind [(.str "sub", .dict [(.str "y", .int 3)]),
          (.str "extra", .str "z")] q = Option.none →
        assocFind rents q = some v) ∧
      (∀ q v, assocFind [(.str "sub", .dict [(.str "y", .int 3)]),
          (.str "extra", .str "z")] q = some v → v.isDict = false →
        assocFind rents q = some v) ∧
      (∀ q ven, assocFind [(.str "sub", .dict [(.str "y", .int 3)]),
          (.str "extra", .str "z")] q = some (.dict ven) →
        assocFind rents q =
          exOk (nestedUpdate 0 0 ven
            ((assocFind [(.str "a", .int 1),
              (.str "sub", .dict [(.str "x", .int 1), (.str "y", .int 2)])] q).getD
              (.dict [])))) :=
  group_read_default_overlay 0 0
    ⟨some (.dict [(.str "sub", .dict [(.str "y", .int 3)]),
      (.str "extra", .str "z")]), 0⟩
    [(.str "sub", .dict [(.str "y", .int 3)]), (.str "extra", .str "z")]
    [(.str "a", .int 1), (.str "sub", .dict [(.str "x", .int 1), (.str "y", .int 2)])]
    (by omega) rfl
    (by simp [wellKeyed, wellKeyedEntries, strNodupKeys, keyAbsent, pyEq,
      PyVal.isStr])
    (by simp [shapeCompatEntries, shapeCompatVal, assocFind, pyEq])
